import Mathlib

/-!
Verification development for the `velocity` repository's ASCII-globe renderer
(`src/ascii_globe/{math,camera,renderer,texture}.rs`).

Modelling conventions:
* `f64` values are embedded as exact real numbers (`ℝ`), the standard
  idealisation of floating point for this kind of specification check.
  The texture/shading stage of `Camera::render_sphere` is additionally kept
  polymorphic over an ordered field `K` with a floor, so that its structural
  properties can be evaluated executably at `K = ℚ` and instantiated at
  `K = ℝ` for the concrete geometry.
* Rust `usize`/`i32` values appearing in the pixel pipeline are embedded as
  `ℕ`/`ℤ`; the casts `as i32` / `as usize` of the (tiny) palette and texel
  indices never overflow a machine word, so no `% 2^w` wrapping is inserted.
* The `f64 -> i32` / `f64 -> usize` casts truncate toward zero (saturating at
  zero for `usize` on negative inputs); both are embedded via `ftrunc`
  (truncation toward zero) followed by `Int.toNat` where the source casts to
  `usize`.
* Rust's `%` on `f64` (used in `GlobeRenderer::update`) is the `fmod`
  operation: `x - y * trunc (x / y)`, whose result has the sign of the
  dividend.  It is embedded as `fmod` below.
* The file system is embedded as a partial map `String → Option (List Char)`
  from file names to file contents; `fs::read_to_string` succeeds exactly on
  the map's domain.
* Mutation of the caller's canvas (`&mut [Vec<char>]`) is embedded by explicit
  state passing: each write-producing operation returns the new canvas.
  Rust's checked `get_mut` writes correspond to `List.set`, which is a no-op
  out of bounds, exactly like the source's `if let Some(...)` chains.
-/

namespace AsciiGlobe

/-! ## math.rs -/

/-- `pub type Vec3 = [f64; 3]` — component 0/1/2 are fields `x`/`y`/`z`. -/
structure Vec3 where
  x : ℝ
  y : ℝ
  z : ℝ

/-- `magnitude` from math.rs: Euclidean norm. -/
noncomputable def magnitude (r : Vec3) : ℝ :=
  Real.sqrt (r.x * r.x + r.y * r.y + r.z * r.z)

/-- `normalize` from math.rs: returns `r` unchanged when the magnitude is
exactly zero, otherwise divides each component by the magnitude. -/
noncomputable def normalize (r : Vec3) : Vec3 :=
  if magnitude r = 0 then r
  else ⟨r.x / magnitude r, r.y / magnitude r, r.z / magnitude r⟩

/-- `dot` from math.rs. -/
noncomputable def dot (a b : Vec3) : ℝ :=
  a.x * b.x + a.y * b.y + a.z * b.z

/-- `vector` from math.rs: componentwise difference `b - c`. -/
noncomputable def vector (b c : Vec3) : Vec3 :=
  ⟨b.x - c.x, b.y - c.y, b.z - c.z⟩

/-- `transform_vector` from math.rs: row-major 4x4 affine transform. -/
noncomputable def transform_vector (v : Vec3) (m : Fin 16 → ℝ) : Vec3 :=
  ⟨v.x * m 0 + v.y * m 4 + v.z * m 8 + m 12,
   v.x * m 1 + v.y * m 5 + v.z * m 9 + m 13,
   v.x * m 2 + v.y * m 6 + v.z * m 10 + m 14⟩

/-- `transform_vector_2` from math.rs: row-major 3x3 transform. -/
noncomputable def transform_vector_2 (v : Vec3) (m : Fin 9 → ℝ) : Vec3 :=
  ⟨m 0 * v.x + m 1 * v.y + m 2 * v.z,
   m 3 * v.x + m 4 * v.y + m 5 * v.z,
   m 6 * v.x + m 7 * v.y + m 8 * v.z⟩

/-- `rotate_x` from math.rs: rotation about the X axis by `theta` radians,
with `a = sin theta`, `b = cos theta` and matrix `[1,0,0, 0,b,-a, 0,a,b]`. -/
noncomputable def rotate_x (v : Vec3) (theta : ℝ) : Vec3 :=
  transform_vector_2 v
    ![1, 0, 0,
      0, Real.cos theta, -(Real.sin theta),
      0, Real.sin theta, Real.cos theta]

/-- `clamp` from math.rs: `x.max(min_val).min(max_val)`, over any linear
order (the source instantiates it at `f64`). -/
def clamp {K : Type} [LinearOrder K] (x min_val max_val : K) : K :=
  min (max x min_val) max_val

/-- `clamp_int` from math.rs: same formula at integer type. -/
def clamp_int (x min_val max_val : ℤ) : ℤ :=
  min (max x min_val) max_val

/-! ## camera.rs — data and the texture/shading stage

The per-pixel body of `Camera::render_sphere` is split into
* a geometry stage (`pixelGeom` below, over `ℝ`): everything from the ray
  set-up to the ray-sphere discriminant test, the Lambertian dot product
  `n · l`, and the raw (pre-wrap) texture angles; and
* a texture/shading stage (`pixelChar`): the luminance remap, the `theta`
  wrap `theta -= theta.floor()`, texel-coordinate clamping, the palette
  lookups, the day/night blend and the palette write.
The shading stage is kept polymorphic in the scalar type `K` so that it can
be executed on `ℚ`; `ℕ → ℕ → Option (K × K × K)` is the type of geometry
stages, giving `some (n·l, thetaRaw, phi)` on a sphere hit at a pixel and
`none` when the ray misses (negative discriminant).
-/

/-- `PALETTE` from camera.rs: `" .:;',wiogOLXHWYV@"` as a character list
(`Char.ofNat 32` is the space, `Char.ofNat 39` the apostrophe). -/
def PALETTE : List Char :=
  [Char.ofNat 32, '.', ':', ';', Char.ofNat 39, ',',
   'w', 'i', 'o', 'g', 'O', 'L', 'X', 'H', 'W', 'Y', 'V', '@']

/-- First index of `c` in the list, if present (Rust
`s.chars().position(|x| x == c)`). -/
def position (c : Char) : List Char → Option ℕ
  | [] => none
  | x :: xs => if x = c then some 0 else (position c xs).map (· + 1)

/-- `find_index` from camera.rs: index of `c` in `s`, or `-1`. -/
def find_index (c : Char) (s : List Char) : ℤ :=
  ((position c s).map (fun i => (i : ℤ))).getD (-1)

/-- Truncation toward zero, the rounding used by Rust's `as i32` / `as usize`
casts from `f64`. -/
def ftrunc {K : Type} [LinearOrderedField K] [FloorRing K] (x : K) : ℤ :=
  if 0 ≤ x then ⌊x⌋ else ⌈x⌉

/-- The texel-coordinate computation of camera.rs (used for both axes):
`clamp_int((t * (n - 1) as f64) as i32, 0, (n - 1) as i32)` where `n` is the
texture width (resp. height). -/
def texCoord {K : Type} [LinearOrderedField K] [FloorRing K] (t : K) (n : ℕ) : ℤ :=
  clamp_int (ftrunc (t * ((n - 1 : ℕ) : K))) 0 ((n - 1 : ℕ) : ℤ)

/-- The luminance computation of camera.rs:
`if lighting { clamp(5.0 * dot(n, l) + 0.5, 0.0, 1.0) } else { 1.0 }`,
as a function of the Lambertian term `nl = dot n l`. -/
def luminanceOf {K : Type} [LinearOrderedField K] (lighting : Bool) (nl : K) : K :=
  if lighting then clamp (5 * nl + 1/2) 0 1 else 1

/-- Read a canvas (or texture) cell: `grid.get(y).and_then(|row| row.get(x))`. -/
def readCell (c : List (List Char)) (y x : ℕ) : Option Char :=
  (c.get? y).bind fun row => row.get? x

/-- Length of row `y` of a canvas (0 when the row does not exist). -/
def rowLen (c : List (List Char)) (y : ℕ) : ℕ :=
  (c.getD y []).length

/-- The in-bounds write at the heart of `draw_point`:
`if let Some(row) = canvas.get_mut(y) { if let Some(cell) = row.get_mut(x) {
*cell = c } }` — `List.set` is a no-op out of bounds exactly like the
checked `get_mut` chain. -/
def setCell (canvas : List (List Char)) (y x : ℕ) (ch : Char) : List (List Char) :=
  canvas.set y ((canvas.getD y []).set x ch)

/-- `draw_point` from camera.rs. -/
def draw_point (canvas : List (List Char)) (x y : ℕ) (c : Char)
    (canvas_width canvas_height : ℕ) : List (List Char) :=
  if x < canvas_width ∧ y < canvas_height then setCell canvas y x c else canvas

/-- The texture/shading stage of the `render_sphere` pixel body: given the
geometry stage's output at pixel `(xi, yi)`, produce the character that
`draw_point` is called with, or `none` when the pixel is skipped (ray miss,
texel lookup failure, or a texel character absent from the palette). -/
def pixelCharCore {K : Type} [LinearOrderedField K] [FloorRing K]
    (earth earth_night : List (List Char)) (lighting : Bool)
    (nl thetaRaw phi : K) : Option Char :=
  let texture_height := earth.length
  let texture_width := (earth.headD []).length
  let luminance := luminanceOf lighting nl
  let theta := thetaRaw - ((⌊thetaRaw⌋ : ℤ) : K)
  let earth_x := texCoord theta texture_width
  let earth_y := texCoord phi texture_height
  match readCell earth earth_y.toNat earth_x.toNat,
        readCell earth_night earth_y.toNat earth_x.toNat with
  | some day_char, some night_char =>
      let day := find_index day_char PALETTE
      let night := find_index night_char PALETTE
      if 0 ≤ day ∧ 0 ≤ night then
        let index0 : ℕ :=
          (ftrunc ((1 - luminance) * ((night : ℤ) : K)
                    + luminance * ((day : ℤ) : K))).toNat
        let index1 : ℤ :=
          clamp_int (index0 : ℤ) 0 ((PALETTE.length : ℤ) - 1)
        some (PALETTE.getD index1.toNat (Char.ofNat 32))
      else none
  | _, _ => none

/-- The full per-pixel skip/write decision: geometry stage (`none` = ray
miss, `continue`) followed by the texture/shading stage. -/
def pixelChar {K : Type} [LinearOrderedField K] [FloorRing K]
    (geom : ℕ → ℕ → Option (K × K × K))
    (earth earth_night : List (List Char)) (lighting : Bool)
    (xi yi : ℕ) : Option Char :=
  match geom xi yi with
  | none => none
  | some (nl, thetaRaw, phi) =>
      pixelCharCore earth earth_night lighting nl thetaRaw phi

/-- One iteration of the inner pixel loop: look up the pixel's character and,
when present, call `draw_point` on the canvas. -/
def applyPixel (pc : ℕ → ℕ → Option Char) (w h : ℕ)
    (canvas : List (List Char)) (xi yi : ℕ) : List (List Char) :=
  match pc xi yi with
  | none => canvas
  | some ch => draw_point canvas xi yi ch w h

/-- The double pixel loop `for yi in 0..canvas_height { for xi in
0..canvas_width { ... } }` of `render_sphere`. -/
def renderLoop (pc : ℕ → ℕ → Option Char) (w h : ℕ)
    (canvas : List (List Char)) : List (List Char) :=
  (List.range h).foldl
    (fun acc yi => (List.range w).foldl (fun acc2 xi => applyPixel pc w h acc2 xi yi) acc)
    canvas

/-- `Camera::render_sphere` with the geometry stage abstracted: the empty
texture early returns, then the pixel loops over `pixelChar`. -/
def renderSphere {K : Type} [LinearOrderedField K] [FloorRing K]
    (geom : ℕ → ℕ → Option (K × K × K))
    (earth earth_night : List (List Char)) (lighting : Bool)
    (canvas_width canvas_height : ℕ)
    (canvas : List (List Char)) : List (List Char) :=
  if earth.length = 0 then canvas
  else if (earth.headD []).length = 0 then canvas
  else renderLoop (pixelChar geom earth earth_night lighting)
        canvas_width canvas_height canvas

/-- Modelled from the spec (§4.2 step 10), for comparison with the code's
blend: `blendedIndex = round((1−luminance)·nightIndex + luminance·dayIndex)`,
clamped into the palette's valid index range. -/
def specBlendedIndex (luminance : ℚ) (nightIdx dayIdx : ℤ) : ℕ :=
  (clamp_int (round ((1 - luminance) * (nightIdx : ℚ) + luminance * (dayIdx : ℚ)))
    0 ((PALETTE.length : ℤ) - 1)).toNat

/-! ## camera.rs — the concrete geometry stage over `ℝ` -/

/-- The `Camera` struct: eye position and the 4x4 basis matrix. -/
structure Camera where
  x : ℝ
  y : ℝ
  z : ℝ
  matrix : Fin 16 → ℝ

/-- `Camera::new(r, alfa, beta)` from camera.rs. -/
noncomputable def Camera.new (r alfa beta : ℝ) : Camera :=
  let a := Real.sin alfa
  let b := Real.cos alfa
  let c := Real.sin beta
  let d := Real.cos beta
  let x := r * b * d
  let y := r * a * d
  let z := r * c
  { x := x, y := y, z := z,
    matrix := ![-a, b, 0, 0,
                b * c, a * c, -d, 0,
                b * d, a * d, c, 0,
                x, y, z, 1] }

/-- `atan2(y, x)` (Rust `f64::atan2`), as the argument of the complex number
`x + y i`. -/
noncomputable def atan2 (y x : ℝ) : ℝ :=
  Complex.arg ⟨x, y⟩

/-- The world-space unit ray direction `u` for pixel `(xi, yi)` of a
`canvas_width × canvas_height` grid, from the body of `render_sphere`:
screen coordinates with the half-pixel offset and the 1.2 horizontal
stretch, transformed by the camera basis, re-based at the eye and
normalised. -/
noncomputable def rayDir (cam : Camera) (canvas_width canvas_height : ℕ)
    (xi yi : ℕ) : Vec3 :=
  let u0 : Vec3 :=
    ⟨-(((xi : ℝ) - (canvas_width : ℝ) / 2) + 1/2) / ((canvas_width : ℝ) / 2) * 1.2,
     (((yi : ℝ) - (canvas_height : ℝ) / 2) + 1/2) / ((canvas_height : ℝ) / 2),
     -1⟩
  let u1 := transform_vector u0 cam.matrix
  normalize ⟨u1.x - cam.x, u1.y - cam.y, u1.z - cam.z⟩

/-- The ray-sphere discriminant
`dot(u,o)^2 - dot(o,o) + radius^2` of `render_sphere` at a pixel, with
`radius` already multiplied by `scale`. -/
noncomputable def rayDisc (cam : Camera) (radius scale : ℝ)
    (canvas_width canvas_height : ℕ) (xi yi : ℕ) : ℝ :=
  let o : Vec3 := ⟨cam.x, cam.y, cam.z⟩
  let u := rayDir cam canvas_width canvas_height xi yi
  let r := radius * scale
  dot u o * dot u o - dot o o + r * r

/-- The intersection point `inter = o + distance·u` of `render_sphere`, with
`distance = -sqrt(discriminant) - dot(u, o)` (the near root). -/
noncomputable def interPoint (cam : Camera) (radius scale : ℝ)
    (canvas_width canvas_height : ℕ) (xi yi : ℕ) : Vec3 :=
  let o : Vec3 := ⟨cam.x, cam.y, cam.z⟩
  let u := rayDir cam canvas_width canvas_height xi yi
  let distance := -Real.sqrt (rayDisc cam radius scale canvas_width canvas_height xi yi)
                  - dot u o
  ⟨o.x + distance * u.x, o.y + distance * u.y, o.z + distance * u.z⟩

/-- The geometry stage of the `render_sphere` pixel body over `ℝ`: `none`
when the discriminant is negative (ray miss, `continue`), otherwise the
Lambertian term `dot n l`, the raw texture angle
`-atan2(y', x')/π + 0.5 + angle_offset/2/π` (wrapped later by `pixelChar`),
and `phi = -z'/radius/2 + 0.5`. -/
noncomputable def pixelGeom (cam : Camera) (radius angle_offset scale tilt : ℝ)
    (canvas_width canvas_height : ℕ) (xi yi : ℕ) : Option (ℝ × ℝ × ℝ) :=
  let light : Vec3 := ⟨0, 999999, 0⟩
  let r := radius * scale
  let tilt_rad := tilt * (Real.pi / 180)
  if rayDisc cam radius scale canvas_width canvas_height xi yi < 0 then none
  else
    let inter := interPoint cam radius scale canvas_width canvas_height xi yi
    let n := normalize inter
    let l := normalize (vector light inter)
    let temp := rotate_x inter (-tilt_rad)
    let phi := -temp.z / r / 2 + 1/2
    let thetaRaw := -(atan2 temp.y temp.x) / Real.pi + 1/2
                    + angle_offset / 2 / Real.pi
    some (dot n l, thetaRaw, phi)

/-- `Camera::render_sphere` over `ℝ`: the generic renderer applied to the
concrete geometry stage. -/
noncomputable def Camera.render_sphere (cam : Camera) (canvas : List (List Char))
    (radius angle_offset : ℝ) (earth earth_night : List (List Char))
    (scale tilt : ℝ) (lighting : Bool)
    (canvas_width canvas_height : ℕ) : List (List Char) :=
  renderSphere (pixelGeom cam radius angle_offset scale tilt canvas_width canvas_height)
    earth earth_night lighting canvas_width canvas_height canvas

/-! ## texture.rs and renderer.rs -/

/-- Split a character sequence at newline characters (`Char.ofNat 10`);
always returns one (possibly empty) piece more than the number of
newlines. -/
def splitNl : List Char → List (List Char)
  | [] => [[]]
  | c :: rest =>
      if c = Char.ofNat 10 then [] :: splitNl rest
      else
        match splitNl rest with
        | [] => [[c]]
        | l :: ls => (c :: l) :: ls

/-- Rust `str::lines`: split at `\n`, drop a final empty piece (produced by a
trailing newline or an empty string), and strip one trailing `\r`
(`Char.ofNat 13`) from each line. -/
def rustLines (s : List Char) : List (List Char) :=
  let parts := splitNl s
  let parts := if parts.getLast? = some [] then parts.dropLast else parts
  parts.map fun l => if l.getLast? = some (Char.ofNat 13) then l.dropLast else l

/-- `load_texture` from texture.rs over the file-system model `fs`:
read the file (error mentioning the path when unreadable), then one row of
characters per line. -/
def load_texture (fs : String → Option (List Char)) (filename : String) :
    Except String (List (List Char)) :=
  match fs filename with
  | none => Except.error ("Error loading texture: " ++ filename)
  | some content => Except.ok (rustLines content)

/-- The `GlobeRenderer` struct from renderer.rs. -/
structure GlobeRenderer where
  camera : Camera
  earth : List (List Char)
  earth_night : List (List Char)
  angle_offset : ℝ
  scale : ℝ
  speed : ℝ
  tilt : ℝ
  lighting : Bool

/-- `GlobeRenderer::new(texture_dir)` from renderer.rs: load
`{texture_dir}/earth.txt` and `{texture_dir}/earth_night.txt` (wrapping a
load error with `Failed to load {path}`), then reject empty (zero-row)
textures with the message `Failed to load textures`. -/
noncomputable def GlobeRenderer.new (fs : String → Option (List Char))
    (texture_dir : String) : Except String GlobeRenderer :=
  let earth_path := texture_dir ++ "/earth.txt"
  let earth_night_path := texture_dir ++ "/earth_night.txt"
  match load_texture fs earth_path with
  | Except.error e => Except.error ("Failed to load " ++ earth_path ++ ": " ++ e)
  | Except.ok earth =>
    match load_texture fs earth_night_path with
    | Except.error e => Except.error ("Failed to load " ++ earth_night_path ++ ": " ++ e)
    | Except.ok earth_night =>
      if earth.isEmpty || earth_night.isEmpty then
        Except.error "Failed to load textures"
      else
        Except.ok
          { camera := Camera.new 2 0 0
            earth := earth
            earth_night := earth_night
            angle_offset := 0
            scale := 1
            speed := 1
            tilt := 23.5
            lighting := true }

/-- `GlobeRenderer::render_frame` from renderer.rs: delegate to
`render_sphere` with sphere radius `1.0` and the stored parameters. -/
noncomputable def GlobeRenderer.render_frame (g : GlobeRenderer)
    (canvas : List (List Char)) (width height : ℕ) : List (List Char) :=
  g.camera.render_sphere canvas 1 g.angle_offset g.earth g.earth_night
    g.scale g.tilt g.lighting width height

/-- Rust's `%` on `f64`: `x - y * trunc (x / y)` (sign of the dividend). -/
noncomputable def fmod (x y : ℝ) : ℝ :=
  x - y * ((ftrunc (x / y) : ℤ) : ℝ)

/-- `GlobeRenderer::update(delta_time)` from renderer.rs:
`angle_offset += 3.49 * speed * delta_time` followed by
`angle_offset % (2.0 * PI_CONST)`. -/
noncomputable def GlobeRenderer.update (g : GlobeRenderer) (delta_time : ℝ) :
    GlobeRenderer :=
  let rotation_rate := 3.49 * g.speed
  let a := g.angle_offset + rotation_rate * delta_time
  { g with angle_offset := fmod a (2 * Real.pi) }

/-! ## Concrete fixtures for counterexamples and witnesses -/

/-- A file system holding a day and a night texture whose contents start with
a newline, so that the loaded grids are `[[], ['x']]`: a nonempty row list
whose first row has width zero. -/
def fsCex : String → Option (List Char) :=
  fun p =>
    if p = "textures/earth.txt" then some [Char.ofNat 10, 'x']
    else if p = "textures/earth_night.txt" then some [Char.ofNat 10, 'x']
    else none

/-- A concrete camera looking down the positive-y axis from `(0, 2·999999, 0)`
(a legal `Camera` value: the struct's fields are arbitrary `f64`s).  For the
centre pixel of a 1×1 canvas its ray hits the sphere of radius `999999`
exactly at the light source `(0, 999999, 0)`, making the Lambertian term
`dot n l` exactly `0` and hence the luminance exactly `1/2` — a pixel where
truncation and rounding of the blended index disagree. -/
noncomputable def camCex : Camera :=
  { x := 0
    y := 2 * 999999
    z := 0
    matrix := ![0, 0, 0, 0,
                0, 0, 0, 0,
                0, 0, 0, 0,
                0, 2 * 999999 - 1, 0, 0] }

/-- A concrete `GlobeRenderer` state (textures are a single `'@'` texel, all
parameters at their construction defaults). -/
noncomputable def g0 : GlobeRenderer :=
  { camera := Camera.new 2 0 0
    earth := [['@']]
    earth_night := [['@']]
    angle_offset := 0
    scale := 1
    speed := 1
    tilt := 23.5
    lighting := true }

/-! ## Canvas write lemmas -/

theorem get?_setCell (c : List (List Char)) (y x : ℕ) (ch : Char) (i : ℕ) :
    (setCell c y x ch).get? i =
      if y = i ∧ y < c.length then some ((c.getD y []).set x ch) else c.get? i := by
  unfold setCell
  simp only [List.get?_eq_getElem?, List.getElem?_set]
  rcases eq_or_ne y i with rfl | hne
  · by_cases hy : y < c.length
    · simp [hy]
    · simp [hy, List.getElem?_eq_none (by omega : c.length ≤ y)]
  · simp [hne]

theorem length_setCell (c : List (List Char)) (y x : ℕ) (ch : Char) :
    (setCell c y x ch).length = c.length := by
  unfold setCell; exact List.length_set ..

theorem rowLen_setCell (c : List (List Char)) (y x : ℕ) (ch : Char) (i : ℕ) :
    rowLen (setCell c y x ch) i = rowLen c i := by
  unfold rowLen
  simp only [List.getD, List.get?_eq_getElem?]
  have := get?_setCell c y x ch i
  simp only [List.get?_eq_getElem?] at this
  rw [this]
  rcases eq_or_ne y i with rfl | hne
  · by_cases hy : y < c.length
    · simp [hy, List.getD, List.get?_eq_getElem?]
    · simp [hy]
  · simp [hne]

theorem get?_set_row (r : List Char) (x x' : ℕ) (ch : Char) :
    (r.set x ch).get? x' = if x' = x ∧ x < r.length then some ch else r.get? x' := by
  simp only [List.get?_eq_getElem?, List.getElem?_set]
  rcases eq_or_ne x x' with rfl | hxe
  · by_cases hx : x < r.length
    · simp [hx]
    · simp [hx, List.getElem?_eq_none (le_of_not_lt hx)]
  · simp [hxe, Ne.symm hxe]

theorem readCell_setCell (c : List (List Char)) (y x : ℕ) (ch : Char) (y' x' : ℕ) :
    readCell (setCell c y x ch) y' x' =
      if y' = y ∧ x' = x ∧ x < rowLen c y then some ch else readCell c y' x' := by
  unfold readCell
  rw [get?_setCell]
  by_cases hy : y = y' ∧ y < c.length
  · obtain ⟨rfl, hlen⟩ := hy
    have hrow : c.get? y = some (c.getD y []) := by
      simp [List.get?_eq_getElem?, List.getElem?_eq_getElem hlen, List.getD_eq_getElem?_getD]
    rw [if_pos ⟨rfl, hlen⟩, hrow]
    show ((c.getD y []).set x ch).get? x' = _
    rw [get?_set_row]
    unfold rowLen
    simp only [eq_self_iff_true, true_and, hrow]
    rfl
  · rw [if_neg hy]
    by_cases hyy : y' = y
    · subst hyy
      have hlen : c.length ≤ y' := by
        by_contra hlt
        exact hy ⟨rfl, by omega⟩
      have h0 : rowLen c y' = 0 := by
        unfold rowLen
        rw [List.getD_eq_default c [] hlen]
        rfl
      rw [if_neg (by rw [h0]; omega)]
    · rw [if_neg (by tauto)]

theorem readCell_draw_point (c : List (List Char)) (x y : ℕ) (ch : Char)
    (w h : ℕ) (y' x' : ℕ) :
    readCell (draw_point c x y ch w h) y' x' =
      if x < w ∧ y < h ∧ y' = y ∧ x' = x ∧ x < rowLen c y then some ch
      else readCell c y' x' := by
  unfold draw_point
  by_cases hg : x < w ∧ y < h
  · rw [if_pos hg, readCell_setCell]
    by_cases hc : y' = y ∧ x' = x ∧ x < rowLen c y
    · rw [if_pos hc, if_pos ⟨hg.1, hg.2, hc⟩]
    · rw [if_neg hc, if_neg (by tauto)]
  · rw [if_neg hg, if_neg (by tauto)]

theorem length_draw_point (c : List (List Char)) (x y : ℕ) (ch : Char) (w h : ℕ) :
    (draw_point c x y ch w h).length = c.length := by
  unfold draw_point
  split_ifs
  · exact length_setCell ..
  · rfl

theorem rowLen_draw_point (c : List (List Char)) (x y : ℕ) (ch : Char)
    (w h : ℕ) (i : ℕ) :
    rowLen (draw_point c x y ch w h) i = rowLen c i := by
  unfold draw_point
  split_ifs
  · exact rowLen_setCell ..
  · rfl

theorem readCell_applyPixel (pc : ℕ → ℕ → Option Char) (w h : ℕ)
    (c : List (List Char)) (xi yi : ℕ) (y' x' : ℕ) :
    readCell (applyPixel pc w h c xi yi) y' x' =
      if xi < w ∧ yi < h ∧ y' = yi ∧ x' = xi ∧ xi < rowLen c yi ∧ (pc xi yi).isSome
      then pc xi yi else readCell c y' x' := by
  unfold applyPixel
  cases hpc : pc xi yi with
  | none => simp [hpc]
  | some ch =>
      rw [readCell_draw_point]
      by_cases hcond : xi < w ∧ yi < h ∧ y' = yi ∧ x' = xi ∧ xi < rowLen c yi
      · rw [if_pos hcond, if_pos (by simp [hpc]; tauto)]
      · rw [if_neg hcond, if_neg (by tauto)]

theorem length_applyPixel (pc : ℕ → ℕ → Option Char) (w h : ℕ)
    (c : List (List Char)) (xi yi : ℕ) :
    (applyPixel pc w h c xi yi).length = c.length := by
  unfold applyPixel
  cases pc xi yi with
  | none => rfl
  | some ch => exact length_draw_point ..

theorem rowLen_applyPixel (pc : ℕ → ℕ → Option Char) (w h : ℕ)
    (c : List (List Char)) (xi yi : ℕ) (i : ℕ) :
    rowLen (applyPixel pc w h c xi yi) i = rowLen c i := by
  unfold applyPixel
  cases pc xi yi with
  | none => rfl
  | some ch => exact rowLen_draw_point ..

/-! ## Pixel-loop lemmas -/

theorem length_rowFold (pc : ℕ → ℕ → Option Char) (w h yi : ℕ) :
    ∀ (W : ℕ) (c : List (List Char)),
      ((List.range W).foldl (fun acc xi => applyPixel pc w h acc xi yi) c).length
        = c.length := by
  intro W
  induction W with
  | zero => intro c; rfl
  | succ n ih =>
      intro c
      rw [List.range_succ, List.foldl_append, List.foldl_cons, List.foldl_nil,
        length_applyPixel, ih]

theorem rowLen_rowFold (pc : ℕ → ℕ → Option Char) (w h yi : ℕ) (i : ℕ) :
    ∀ (W : ℕ) (c : List (List Char)),
      rowLen ((List.range W).foldl (fun acc xi => applyPixel pc w h acc xi yi) c) i
        = rowLen c i := by
  intro W
  induction W with
  | zero => intro c; rfl
  | succ n ih =>
      intro c
      rw [List.range_succ, List.foldl_append, List.foldl_cons, List.foldl_nil,
        rowLen_applyPixel, ih]

theorem readCell_rowFold (pc : ℕ → ℕ → Option Char) (w h yi y' x' : ℕ) :
    ∀ (W : ℕ) (c : List (List Char)),
      readCell ((List.range W).foldl (fun acc xi => applyPixel pc w h acc xi yi) c) y' x' =
        if y' = yi ∧ x' < W ∧ x' < w ∧ yi < h ∧ x' < rowLen c yi ∧ (pc x' yi).isSome
        then pc x' yi else readCell c y' x' := by
  intro W
  induction W with
  | zero => intro c; simp
  | succ n ih =>
      intro c
      rw [List.range_succ, List.foldl_append, List.foldl_cons, List.foldl_nil,
        readCell_applyPixel, rowLen_rowFold, ih]
      by_cases hlast : n < w ∧ yi < h ∧ y' = yi ∧ x' = n ∧ n < rowLen c yi ∧ (pc n yi).isSome
      · obtain ⟨h1, h2, h3, h4, h5, h6⟩ := hlast
        subst h4
        rw [if_pos ⟨h1, h2, h3, rfl, h5, h6⟩,
          if_pos ⟨h3, by omega, h1, h2, h5, h6⟩]
      · rw [if_neg hlast]
        by_cases hin : y' = yi ∧ x' < n ∧ x' < w ∧ yi < h ∧ x' < rowLen c yi ∧ (pc x' yi).isSome
        · obtain ⟨h1, h2, h3, h4, h5, h6⟩ := hin
          rw [if_pos ⟨h1, h2, h3, h4, h5, h6⟩, if_pos ⟨h1, by omega, h3, h4, h5, h6⟩]
        · rw [if_neg hin, if_neg (by
            intro ⟨h1, h2, h3, h4, h5, h6⟩
            rcases Nat.lt_succ_iff_lt_or_eq.mp h2 with hlt | rfl
            · exact hin ⟨h1, hlt, h3, h4, h5, h6⟩
            · exact hlast ⟨h3, h4, h1, rfl, h5, h6⟩)]

theorem length_renderLoop (pc : ℕ → ℕ → Option Char) (w h : ℕ) :
    ∀ (H : ℕ) (c : List (List Char)),
      ((List.range H).foldl
        (fun acc yi => (List.range w).foldl (fun acc2 xi => applyPixel pc w h acc2 xi yi) acc)
        c).length = c.length := by
  intro H
  induction H with
  | zero => intro c; rfl
  | succ n ih =>
      intro c
      rw [List.range_succ, List.foldl_append, List.foldl_cons, List.foldl_nil,
        length_rowFold, ih]

theorem rowLen_renderLoop (pc : ℕ → ℕ → Option Char) (w h : ℕ) (i : ℕ) :
    ∀ (H : ℕ) (c : List (List Char)),
      rowLen ((List.range H).foldl
        (fun acc yi => (List.range w).foldl (fun acc2 xi => applyPixel pc w h acc2 xi yi) acc)
        c) i = rowLen c i := by
  intro H
  induction H with
  | zero => intro c; rfl
  | succ n ih =>
      intro c
      rw [List.range_succ, List.foldl_append, List.foldl_cons, List.foldl_nil,
        rowLen_rowFold, ih]

theorem readCell_renderLoopAux (pc : ℕ → ℕ → Option Char) (w h y' x' : ℕ) :
    ∀ (H : ℕ) (c : List (List Char)),
      readCell ((List.range H).foldl
        (fun acc yi => (List.range w).foldl (fun acc2 xi => applyPixel pc w h acc2 xi yi) acc)
        c) y' x' =
        if y' < H ∧ x' < w ∧ y' < h ∧ x' < rowLen c y' ∧ (pc x' y').isSome
        then pc x' y' else readCell c y' x' := by
  intro H
  induction H with
  | zero => intro c; simp
  | succ n ih =>
      intro c
      rw [List.range_succ, List.foldl_append, List.foldl_cons, List.foldl_nil,
        readCell_rowFold, rowLen_renderLoop, ih]
      by_cases hlast : y' = n ∧ x' < w ∧ x' < w ∧ n < h ∧ x' < rowLen c n ∧ (pc x' n).isSome
      · obtain ⟨h1, h2, _, h4, h5, h6⟩ := hlast
        subst h1
        rw [if_pos ⟨rfl, h2, h2, h4, h5, h6⟩, if_pos ⟨by omega, h2, h4, h5, h6⟩]
      · rw [if_neg hlast]
        by_cases hin : y' < n ∧ x' < w ∧ y' < h ∧ x' < rowLen c y' ∧ (pc x' y').isSome
        · obtain ⟨h1, h2, h3, h4, h5⟩ := hin
          rw [if_pos ⟨h1, h2, h3, h4, h5⟩, if_pos ⟨by omega, h2, h3, h4, h5⟩]
        · rw [if_neg hin, if_neg (by
            intro ⟨h1, h2, h3, h4, h5⟩
            rcases Nat.lt_succ_iff_lt_or_eq.mp h1 with hlt | rfl
            · exact hin ⟨hlt, h2, h3, h4, h5⟩
            · exact hlast ⟨rfl, h2, h2, h3, h4, h5⟩)]

/-- Pointwise description of the pixel loops: the cell at `(x, y)` receives
`pc x y` exactly when the pixel is inside the `w × h` render area, inside the
caller's canvas, and the pixel produces a character; otherwise it is left
unchanged. -/
theorem readCell_renderLoop (pc : ℕ → ℕ → Option Char) (w h : ℕ)
    (c : List (List Char)) (y x : ℕ) :
    readCell (renderLoop pc w h c) y x =
      if y < h ∧ x < w ∧ x < rowLen c y ∧ (pc x y).isSome
      then pc x y else readCell c y x := by
  unfold renderLoop
  rw [readCell_renderLoopAux]
  by_cases hc : y < h ∧ x < w ∧ x < rowLen c y ∧ (pc x y).isSome
  · obtain ⟨h1, h2, h3, h4⟩ := hc
    rw [if_pos ⟨h1, h2, h1, h3, h4⟩, if_pos ⟨h1, h2, h3, h4⟩]
  · rw [if_neg (by tauto), if_neg hc]

/-- Two canvases with equal lengths and equal cell reads everywhere are
equal. -/
theorem canvas_ext (c₁ c₂ : List (List Char)) (hlen : c₁.length = c₂.length)
    (hcell : ∀ y x, readCell c₁ y x = readCell c₂ y x) : c₁ = c₂ := by
  apply List.ext_getElem?
  intro y
  by_cases hy : y < c₁.length
  · have hy₂ : y < c₂.length := by omega
    rw [List.getElem?_eq_getElem hy, List.getElem?_eq_getElem hy₂]
    have hrow : ∀ x, (c₁[y]).get? x = (c₂[y]).get? x := by
      intro x
      have := hcell y x
      unfold readCell at this
      rwa [List.get?_eq_getElem?, List.getElem?_eq_getElem hy,
        List.get?_eq_getElem?, List.getElem?_eq_getElem hy₂,
        Option.some_bind, Option.some_bind] at this
    congr 1
    apply List.ext_getElem?
    intro x
    have := hrow x
    rwa [List.get?_eq_getElem?, List.get?_eq_getElem?] at this
  · rw [List.getElem?_eq_none (by omega), List.getElem?_eq_none (by omega)]

/-- The pixel loops are idempotent: running them a second time writes exactly
the values already present. -/
theorem renderLoop_idem (pc : ℕ → ℕ → Option Char) (w h : ℕ)
    (c : List (List Char)) :
    renderLoop pc w h (renderLoop pc w h c) = renderLoop pc w h c := by
  apply canvas_ext
  · unfold renderLoop
    rw [length_renderLoop]
  · intro y x
    rw [readCell_renderLoop, readCell_renderLoop]
    have hrl : rowLen (renderLoop pc w h c) y = rowLen c y := by
      unfold renderLoop
      rw [rowLen_renderLoop]
    rw [hrl]
    by_cases hc : y < h ∧ x < w ∧ x < rowLen c y ∧ (pc x y).isSome
    · rw [if_pos hc, if_pos hc]
    · rw [if_neg hc, if_neg hc]

/-! ## renderSphere-level lemmas -/

theorem readCell_renderSphere {K : Type} [LinearOrderedField K] [FloorRing K]
    (geom : ℕ → ℕ → Option (K × K × K))
    (earth earth_night : List (List Char)) (lighting : Bool)
    (w h : ℕ) (canvas : List (List Char)) (y x : ℕ) :
    readCell (renderSphere geom earth earth_night lighting w h canvas) y x =
      if earth.length ≠ 0 ∧ (earth.headD []).length ≠ 0 ∧ y < h ∧ x < w
          ∧ x < rowLen canvas y ∧ (pixelChar geom earth earth_night lighting x y).isSome
      then pixelChar geom earth earth_night lighting x y
      else readCell canvas y x := by
  unfold renderSphere
  by_cases h1 : earth.length = 0
  · rw [if_pos h1, if_neg (by tauto)]
  · rw [if_neg h1]
    by_cases h2 : (earth.headD []).length = 0
    · rw [if_pos h2, if_neg (by tauto)]
    · rw [if_neg h2, readCell_renderLoop]
      by_cases hc : y < h ∧ x < w ∧ x < rowLen canvas y
          ∧ (pixelChar geom earth earth_night lighting x y).isSome
      · rw [if_pos hc, if_pos ⟨h1, h2, hc⟩]
      · rw [if_neg hc, if_neg (by tauto)]

theorem length_renderSphere {K : Type} [LinearOrderedField K] [FloorRing K]
    (geom : ℕ → ℕ → Option (K × K × K))
    (earth earth_night : List (List Char)) (lighting : Bool)
    (w h : ℕ) (canvas : List (List Char)) :
    (renderSphere geom earth earth_night lighting w h canvas).length = canvas.length := by
  unfold renderSphere
  split_ifs
  · rfl
  · rfl
  · unfold renderLoop; rw [length_renderLoop]

theorem rowLen_renderSphere {K : Type} [LinearOrderedField K] [FloorRing K]
    (geom : ℕ → ℕ → Option (K × K × K))
    (earth earth_night : List (List Char)) (lighting : Bool)
    (w h : ℕ) (canvas : List (List Char)) (i : ℕ) :
    rowLen (renderSphere geom earth earth_night lighting w h canvas) i = rowLen canvas i := by
  unfold renderSphere
  split_ifs
  · rfl
  · rfl
  · unfold renderLoop; rw [rowLen_renderLoop]

theorem renderSphere_idem {K : Type} [LinearOrderedField K] [FloorRing K]
    (geom : ℕ → ℕ → Option (K × K × K))
    (earth earth_night : List (List Char)) (lighting : Bool)
    (w h : ℕ) (canvas : List (List Char)) :
    renderSphere geom earth earth_night lighting w h
        (renderSphere geom earth earth_night lighting w h canvas)
      = renderSphere geom earth earth_night lighting w h canvas := by
  unfold renderSphere
  split_ifs
  · rfl
  · rfl
  · exact renderLoop_idem ..

/-- `renderSphere` depends on the geometry stage only through `pixelChar`. -/
theorem renderSphere_congr {K : Type} [LinearOrderedField K] [FloorRing K]
    (geom₁ geom₂ : ℕ → ℕ → Option (K × K × K))
    (earth earth_night : List (List Char)) (lighting : Bool)
    (w h : ℕ) (canvas : List (List Char))
    (hpc : ∀ xi yi, pixelChar geom₁ earth earth_night lighting xi yi
        = pixelChar geom₂ earth earth_night lighting xi yi) :
    renderSphere geom₁ earth earth_night lighting w h canvas
      = renderSphere geom₂ earth earth_night lighting w h canvas := by
  unfold renderSphere
  rw [funext fun xi => funext fun yi => hpc xi yi]

/-! ## Palette and texel-coordinate helpers -/

theorem position_lt_length (c : Char) : ∀ (s : List Char) (i : ℕ),
    position c s = some i → i < s.length := by
  intro s
  induction s with
  | nil => intro i h; simp [position] at h
  | cons x xs ih =>
      intro i h
      unfold position at h
      by_cases hx : x = c
      · rw [if_pos hx] at h
        cases h
        simp
      · rw [if_neg hx] at h
        rcases Option.map_eq_some'.mp h with ⟨j, hj, rfl⟩
        have := ih j hj
        simp only [List.length_cons]
        omega

theorem position_getD (c d : Char) : ∀ (s : List Char) (i : ℕ),
    position c s = some i → s.getD i d = c := by
  intro s
  induction s with
  | nil => intro i h; simp [position] at h
  | cons x xs ih =>
      intro i h
      unfold position at h
      by_cases hx : x = c
      · rw [if_pos hx] at h
        cases h
        simpa using hx
      · rw [if_neg hx] at h
        rcases Option.map_eq_some'.mp h with ⟨j, hj, rfl⟩
        simpa using ih j hj

theorem find_index_spec (ch : Char) (s : List Char) (h : 0 ≤ find_index ch s) :
    ∃ i : ℕ, position ch s = some i ∧ find_index ch s = (i : ℤ) := by
  unfold find_index at *
  cases hp : position ch s with
  | none => rw [hp] at h; norm_num at h
  | some i => exact ⟨i, rfl, by rfl⟩

theorem texCoord_nonneg {K : Type} [LinearOrderedField K] [FloorRing K]
    (t : K) (n : ℕ) (hn : 1 ≤ n) : 0 ≤ texCoord t n := by
  unfold texCoord clamp_int
  omega

theorem texCoord_le {K : Type} [LinearOrderedField K] [FloorRing K]
    (t : K) (n : ℕ) : texCoord t n ≤ ((n - 1 : ℕ) : ℤ) := by
  unfold texCoord clamp_int
  omega

theorem texCoord_one {K : Type} [LinearOrderedField K] [FloorRing K]
    (t : K) : texCoord t 1 = 0 := by
  unfold texCoord clamp_int
  omega

/-! ## pixelChar evaluation helpers -/

theorem pixelChar_none_of_geom_none {K : Type} [LinearOrderedField K] [FloorRing K]
    (geom : ℕ → ℕ → Option (K × K × K)) (earth earth_night : List (List Char))
    (lighting : Bool) (xi yi : ℕ) (h : geom xi yi = none) :
    pixelChar geom earth earth_night lighting xi yi = none := by
  unfold pixelChar
  rw [h]

theorem pixelChar_of_geom_some {K : Type} [LinearOrderedField K] [FloorRing K]
    (geom : ℕ → ℕ → Option (K × K × K)) (earth earth_night : List (List Char))
    (lighting : Bool) (xi yi : ℕ) (nl th ph : K)
    (h : geom xi yi = some (nl, th, ph)) :
    pixelChar geom earth earth_night lighting xi yi
      = pixelCharCore earth earth_night lighting nl th ph := by
  unfold pixelChar
  rw [h]

theorem pixelCharCore_eq_some {K : Type} [LinearOrderedField K] [FloorRing K]
    (earth earth_night : List (List Char)) (lighting : Bool) (nl th ph : K)
    (dc nc : Char)
    (hday : readCell earth (texCoord ph earth.length).toNat
        (texCoord (th - ((⌊th⌋ : ℤ) : K)) ((earth.headD []).length)).toNat = some dc)
    (hnight : readCell earth_night (texCoord ph earth.length).toNat
        (texCoord (th - ((⌊th⌋ : ℤ) : K)) ((earth.headD []).length)).toNat = some nc)
    (hd : 0 ≤ find_index dc PALETTE) (hn : 0 ≤ find_index nc PALETTE) :
    pixelCharCore earth earth_night lighting nl th ph =
      some (PALETTE.getD
        (clamp_int
          (((ftrunc ((1 - luminanceOf lighting nl) * ((find_index nc PALETTE : ℤ) : K)
              + luminanceOf lighting nl * ((find_index dc PALETTE : ℤ) : K))).toNat : ℕ) : ℤ)
          0 ((PALETTE.length : ℤ) - 1)).toNat (Char.ofNat 32)) := by
  simp only [pixelCharCore, hday, hnight]
  rw [if_pos ⟨hd, hn⟩]

/-! ## Claims -/

/-- C9: `normalize` returns `v` unchanged when the magnitude of `v` is
exactly zero, and otherwise returns `v` divided component-wise by its
Euclidean magnitude; in particular `normalize` of the zero vector is the
zero vector (the function is total — no panic, no division by zero). -/
theorem c9_normalize_zero_safe :
    (∀ v : Vec3, magnitude v = 0 → normalize v = v) ∧
    normalize ⟨0, 0, 0⟩ = (⟨0, 0, 0⟩ : Vec3) ∧
    (∀ v : Vec3, magnitude v ≠ 0 →
      normalize v = ⟨v.x / magnitude v, v.y / magnitude v, v.z / magnitude v⟩) := by
  refine ⟨?_, ?_, ?_⟩
  · intro v h
    unfold normalize
    rw [if_pos h]
  · have h0 : magnitude ⟨0, 0, 0⟩ = 0 := by
      unfold magnitude
      norm_num [Real.sqrt_zero]
    unfold normalize
    rw [if_pos h0]
  · intro v h
    unfold normalize
    rw [if_neg h]

/-- Witness for C9 at the zero vector and at `(1, 0, 0)`. -/
theorem c9_witness :
    normalize ⟨0, 0, 0⟩ = (⟨0, 0, 0⟩ : Vec3) ∧
    normalize ⟨1, 0, 0⟩ =
      ⟨1 / magnitude ⟨1, 0, 0⟩, 0 / magnitude ⟨1, 0, 0⟩, 0 / magnitude ⟨1, 0, 0⟩⟩ :=
  ⟨c9_normalize_zero_safe.1 ⟨0, 0, 0⟩ (by unfold magnitude; norm_num [Real.sqrt_zero]),
   c9_normalize_zero_safe.2.2 ⟨1, 0, 0⟩ (by unfold magnitude; norm_num [Real.sqrt_one])⟩

/-- C8: for every scalar type and every texture extent `n ≥ 1`, the texel
coordinate `clamp_int((t·(n−1)) as i32, 0, n−1)` computed by
`render_sphere` lies in `[0, n−1]` (so sampling is never out of range), and
for a 1×1 texture it is `0` for every `t` — every hit pixel samples the
single texel `(0, 0)`. -/
theorem c8_texcoord_in_range :
    (∀ (K : Type) [LinearOrderedField K] [FloorRing K] (t : K) (n : ℕ),
      1 ≤ n → 0 ≤ texCoord t n ∧ texCoord t n ≤ (n : ℤ) - 1) ∧
    (∀ (K : Type) [LinearOrderedField K] [FloorRing K] (t : K), texCoord t 1 = 0) := by
  constructor
  · intro K _ _ t n hn
    have h1 := texCoord_nonneg t n hn
    have h2 := texCoord_le t n
    omega
  · intro K _ _ t
    exact texCoord_one t

/-- Witness for C8 at `t = 7/3`, `n = 3` over `ℚ`. -/
theorem c8_witness :
    0 ≤ texCoord (7/3 : ℚ) 3 ∧ texCoord (7/3 : ℚ) 3 ≤ (3 : ℤ) - 1 :=
  c8_texcoord_in_range.1 ℚ (7/3) 3 (by norm_num)

/-- C7: calling `render_frame` twice with identical `GlobeRenderer` state and
identical width/height (no intervening `update`) leaves the canvas of the
first call unchanged — the second call writes exactly the values already
present. -/
theorem c7_render_frame_idempotent (g : GlobeRenderer)
    (canvas : List (List Char)) (width height : ℕ) :
    g.render_frame (g.render_frame canvas width height) width height
      = g.render_frame canvas width height := by
  unfold GlobeRenderer.render_frame Camera.render_sphere
  exact renderSphere_idem ..

/-- C10: `render_sphere` never creates, removes, or resizes canvas rows
(writes go through the checked `draw_point`), and any cell outside the
`width × height` render area is left untouched; the embedding is a total
function, so no out-of-bounds access can panic even when the canvas is
smaller than the passed width/height. -/
theorem c10_bounded_writes :
    (∀ (K : Type) [LinearOrderedField K] [FloorRing K]
        (geom : ℕ → ℕ → Option (K × K × K)) (earth earth_night : List (List Char))
        (lighting : Bool) (w h : ℕ) (canvas : List (List Char)),
      (renderSphere geom earth earth_night lighting w h canvas).length = canvas.length) ∧
    (∀ (K : Type) [LinearOrderedField K] [FloorRing K]
        (geom : ℕ → ℕ → Option (K × K × K)) (earth earth_night : List (List Char))
        (lighting : Bool) (w h : ℕ) (canvas : List (List Char)) (i : ℕ),
      rowLen (renderSphere geom earth earth_night lighting w h canvas) i
        = rowLen canvas i) ∧
    (∀ (K : Type) [LinearOrderedField K] [FloorRing K]
        (geom : ℕ → ℕ → Option (K × K × K)) (earth earth_night : List (List Char))
        (lighting : Bool) (w h : ℕ) (canvas : List (List Char)) (y x : ℕ),
      w ≤ x ∨ h ≤ y →
      readCell (renderSphere geom earth earth_night lighting w h canvas) y x
        = readCell canvas y x) := by
  refine ⟨?_, ?_, ?_⟩
  · intro K _ _ geom earth earth_night lighting w h canvas
    exact length_renderSphere ..
  · intro K _ _ geom earth earth_night lighting w h canvas i
    exact rowLen_renderSphere ..
  · intro K _ _ geom earth earth_night lighting w h canvas y x hout
    rw [readCell_renderSphere]
    rw [if_neg ?_]
    rintro ⟨-, -, hy, hx, -, -⟩
    omega

/-- Witness for C10: a cell to the right of a 1×1 render area is untouched. -/
theorem c10_witness :
    readCell (renderSphere (fun _ _ => some ((0 : ℚ), 0, 0))
        [['.']] [['.']] true 1 1 [['#']]) 0 5 = readCell [['#']] 0 5 :=
  c10_bounded_writes.2.2 ℚ (fun _ _ => some (0, 0, 0)) [['.']] [['.']] true 1 1
    [['#']] 0 5 (Or.inl (by norm_num))

/-- C5: a pixel whose ray misses the sphere (negative discriminant, i.e. the
geometry stage yields `none` — second conjunct) or whose sampled day or
night texel character is absent from the palette (fourth conjunct) produces
no character, and a pixel that produces no character leaves the destination
cell untouched (first conjunct); the rendering functions are total, so
per-pixel failures never raise an error. -/
theorem c5_per_pixel_skip :
    (∀ (K : Type) [LinearOrderedField K] [FloorRing K]
        (geom : ℕ → ℕ → Option (K × K × K)) (earth earth_night : List (List Char))
        (lighting : Bool) (w h : ℕ) (canvas : List (List Char)) (x y : ℕ),
      pixelChar geom earth earth_night lighting x y = none →
      readCell (renderSphere geom earth earth_night lighting w h canvas) y x
        = readCell canvas y x) ∧
    (∀ (cam : Camera) (radius angle_offset scale tilt : ℝ) (w h xi yi : ℕ),
      pixelGeom cam radius angle_offset scale tilt w h xi yi = none ↔
        rayDisc cam radius scale w h xi yi < 0) ∧
    (∀ (K : Type) [LinearOrderedField K] [FloorRing K]
        (geom : ℕ → ℕ → Option (K × K × K)) (earth earth_night : List (List Char))
        (lighting : Bool) (xi yi : ℕ),
      geom xi yi = none → pixelChar geom earth earth_night lighting xi yi = none) ∧
    (∀ (K : Type) [LinearOrderedField K] [FloorRing K]
        (earth earth_night : List (List Char)) (lighting : Bool) (nl th ph : K)
        (dc nc : Char),
      readCell earth (texCoord ph earth.length).toNat
          (texCoord (th - ((⌊th⌋ : ℤ) : K)) ((earth.headD []).length)).toNat = some dc →
      readCell earth_night (texCoord ph earth.length).toNat
          (texCoord (th - ((⌊th⌋ : ℤ) : K)) ((earth.headD []).length)).toNat = some nc →
      (find_index dc PALETTE < 0 ∨ find_index nc PALETTE < 0) →
      pixelCharCore earth earth_night lighting nl th ph = none) := by
  refine ⟨?_, ?_, ?_, ?_⟩
  · intro K _ _ geom earth earth_night lighting w h canvas x y hnone
    rw [readCell_renderSphere]
    rw [if_neg (by simp [hnone])]
  · intro cam radius angle_offset scale tilt w h xi yi
    by_cases hd : rayDisc cam radius scale w h xi yi < 0
    · simp [pixelGeom, hd]
    · simp [pixelGeom, hd]
  · intro K _ _ geom earth earth_night lighting xi yi h
    exact pixelChar_none_of_geom_none geom earth earth_night lighting xi yi h
  · intro K _ _ earth earth_night lighting nl th ph dc nc hday hnight hmiss
    simp only [pixelCharCore, hday, hnight]
    rw [if_neg (by omega)]

/-- Witness for C5: with a geometry stage that reports a miss everywhere, a
1×1 render leaves the canvas cell unchanged. -/
theorem c5_witness :
    readCell (renderSphere (fun _ _ => (none : Option (ℚ × ℚ × ℚ)))
        [['.']] [['.']] true 1 1 [['#']]) 0 0 = readCell [['#']] 0 0 :=
  c5_per_pixel_skip.1 ℚ (fun _ _ => none) [['.']] [['.']] true 1 1 [['#']] 0 0 rfl

/-- C1 (the code violates its own `[0, 2π)` comment): after
`update(-1.0)` from the freshly constructed state (offset `0`, speed `1`)
the rotation offset is `fmod(-3.49, 2π) = -3.49 < 0`, outside `[0, 2π)` —
Rust's `%` keeps the sign of the dividend. -/
theorem c1_update_negative_offset : (g0.update (-1)).angle_offset < 0 := by
  show fmod (g0.angle_offset + 3.49 * g0.speed * (-1)) (2 * Real.pi) < 0
  have h2π : (0 : ℝ) < 2 * Real.pi := by positivity
  have harg : g0.angle_offset + 3.49 * g0.speed * (-1) = -(349/100 : ℝ) := by
    show (0 : ℝ) + 3.49 * 1 * (-1) = -(349/100 : ℝ)
    norm_num
  rw [harg]
  unfold fmod ftrunc
  have hlt : -(349/100 : ℝ) / (2 * Real.pi) < 0 :=
    div_neg_of_neg_of_pos (by norm_num) h2π
  rw [if_neg (not_le.mpr hlt)]
  have hceil : ⌈-(349/100 : ℝ) / (2 * Real.pi)⌉ = 0 := by
    rw [Int.ceil_eq_zero_iff]
    simp only [Set.mem_Ioc]
    constructor
    · have hq : (349/100 : ℝ) / (2 * Real.pi) < 1 :=
        (div_lt_one h2π).mpr (by nlinarith [Real.pi_gt_three])
      rw [neg_div]
      linarith
    · exact le_of_lt hlt
  rw [hceil]
  norm_num [Real.pi_pos]

/-- Counterexample to C3: a texture file whose content is `"\nx"` loads as
`[[], ['x']]` — a nonempty row list whose *first row has width zero* — yet
`GlobeRenderer::new` succeeds: the code only checks `is_empty()` (zero rows),
not the zero-width first row required by the claim. -/
theorem c3_counterexample :
    load_texture fsCex "textures/earth.txt" = Except.ok [[], ['x']] ∧
    (GlobeRenderer.new fsCex "textures").isOk = true := by
  constructor
  · rfl
  · rfl

/-- C3 amended: construction succeeds iff both texture files load and both
loaded textures have at least one row (a zero-width first row is accepted);
a file-load failure is reported with the offending path, while the
zero-rows failure is the generic `Failed to load textures` message. -/
theorem c3_new_error_conditions :
    ∀ (fs : String → Option (List Char)) (texture_dir : String),
      ((GlobeRenderer.new fs texture_dir).isOk =
        match fs (texture_dir ++ "/earth.txt"), fs (texture_dir ++ "/earth_night.txt") with
        | some c1, some c2 => !(rustLines c1).isEmpty && !(rustLines c2).isEmpty
        | _, _ => false) ∧
      (fs (texture_dir ++ "/earth.txt") = none →
        GlobeRenderer.new fs texture_dir =
          Except.error ("Failed to load " ++ (texture_dir ++ "/earth.txt") ++ ": "
            ++ ("Error loading texture: " ++ (texture_dir ++ "/earth.txt")))) := by
  intro fs texture_dir
  constructor
  · simp only [GlobeRenderer.new, load_texture]
    cases h1 : fs (texture_dir ++ "/earth.txt") with
    | none => rfl
    | some c1 =>
        cases h2 : fs (texture_dir ++ "/earth_night.txt") with
        | none => rfl
        | some c2 =>
            cases hA : (rustLines c1).isEmpty <;> cases hB : (rustLines c2).isEmpty <;>
              simp [hA, hB, Except.isOk] <;> rfl
  · intro h
    simp only [GlobeRenderer.new, load_texture, h]

/-- Witness for C3 amended: with an empty file system, construction fails and
the error names the day-texture path. -/
theorem c3_witness :
    ((GlobeRenderer.new (fun _ => none) "t").isOk = false) ∧
    GlobeRenderer.new (fun _ => none) "t" =
      Except.error ("Failed to load " ++ ("t" ++ "/earth.txt") ++ ": "
        ++ ("Error loading texture: " ++ ("t" ++ "/earth.txt"))) :=
  ⟨(c3_new_error_conditions (fun _ => none) "t").1,
   (c3_new_error_conditions (fun _ => none) "t").2 rfl⟩

/-- C2 amended: for every rendered pixel that hits the sphere and whose day
and night texel characters are both in the palette, the written character is
the palette character at index `trunc((1−luminance)·nightIndex +
luminance·dayIndex)` (truncation toward zero — the Rust `as usize` cast —
not `round`), clamped into `[0, paletteLength−1]`. -/
theorem c2_blend_truncates
    (K : Type) [LinearOrderedField K] [FloorRing K]
    (geom : ℕ → ℕ → Option (K × K × K))
    (earth earth_night canvas : List (List Char)) (lighting : Bool)
    (w h x y : ℕ) (nl th ph : K) (dc nc : Char)
    (hearth : earth.length ≠ 0) (hwidth : (earth.headD []).length ≠ 0)
    (hx : x < w) (hy : y < h) (hrow : x < rowLen canvas y)
    (hgeom : geom x y = some (nl, th, ph))
    (hday : readCell earth (texCoord ph earth.length).toNat
        (texCoord (th - ((⌊th⌋ : ℤ) : K)) ((earth.headD []).length)).toNat = some dc)
    (hnight : readCell earth_night (texCoord ph earth.length).toNat
        (texCoord (th - ((⌊th⌋ : ℤ) : K)) ((earth.headD []).length)).toNat = some nc)
    (hd : 0 ≤ find_index dc PALETTE) (hn : 0 ≤ find_index nc PALETTE) :
    readCell (renderSphere geom earth earth_night lighting w h canvas) y x =
      some (PALETTE.getD
        (clamp_int
          (((ftrunc ((1 - luminanceOf lighting nl) * ((find_index nc PALETTE : ℤ) : K)
              + luminanceOf lighting nl * ((find_index dc PALETTE : ℤ) : K))).toNat : ℕ) : ℤ)
          0 ((PALETTE.length : ℤ) - 1)).toNat (Char.ofNat 32)) := by
  have hpc :=
    (pixelChar_of_geom_some geom earth earth_night lighting x y nl th ph hgeom).trans
      (pixelCharCore_eq_some earth earth_night lighting nl th ph dc nc hday hnight hd hn)
  rw [readCell_renderSphere, if_pos ⟨hearth, hwidth, hy, hx, hrow, by rw [hpc]; rfl⟩, hpc]

/-- Witness for C2 amended: a 1×1 render over `ℚ` with Lambertian term `0`
(luminance `1/2`), day texel `'.'` and night texel `' '`. -/
theorem c2_amended_witness :
    readCell (renderSphere (fun _ _ => some ((0 : ℚ), 0, 0))
        [['.']] [[Char.ofNat 32]] true 1 1 [['#']]) 0 0 =
      some (PALETTE.getD
        (clamp_int
          (((ftrunc ((1 - luminanceOf true (0 : ℚ)) * ((find_index (Char.ofNat 32) PALETTE : ℤ) : ℚ)
              + luminanceOf true (0 : ℚ) * ((find_index '.' PALETTE : ℤ) : ℚ))).toNat : ℕ) : ℤ)
          0 ((PALETTE.length : ℤ) - 1)).toNat (Char.ofNat 32)) :=
  c2_blend_truncates ℚ (fun _ _ => some (0, 0, 0)) [['.']] [[Char.ofNat 32]] [['#']]
    true 1 1 0 0 0 0 0 '.' (Char.ofNat 32)
    (by norm_num) (by norm_num) (by norm_num) (by norm_num) (by norm_num [rowLen])
    rfl
    (by simp only [List.length_singleton, List.headD_cons]
        rw [texCoord_one, texCoord_one]; rfl)
    (by simp only [List.length_singleton, List.headD_cons]
        rw [texCoord_one, texCoord_one]; rfl)
    (by decide) (by decide)

/-- C4: with lighting disabled the per-pixel luminance is exactly `1`, and
every rendered pixel that hits the sphere and samples palette-member texels
in both textures writes the day texel character itself — the night texture
index does not influence the result. -/
theorem c4_lighting_disabled_day_char
    (K : Type) [LinearOrderedField K] [FloorRing K]
    (geom : ℕ → ℕ → Option (K × K × K))
    (earth earth_night canvas : List (List Char))
    (w h x y : ℕ) (nl th ph : K) (dc nc : Char)
    (hearth : earth.length ≠ 0) (hwidth : (earth.headD []).length ≠ 0)
    (hx : x < w) (hy : y < h) (hrow : x < rowLen canvas y)
    (hgeom : geom x y = some (nl, th, ph))
    (hday : readCell earth (texCoord ph earth.length).toNat
        (texCoord (th - ((⌊th⌋ : ℤ) : K)) ((earth.headD []).length)).toNat = some dc)
    (hnight : readCell earth_night (texCoord ph earth.length).toNat
        (texCoord (th - ((⌊th⌋ : ℤ) : K)) ((earth.headD []).length)).toNat = some nc)
    (hd : 0 ≤ find_index dc PALETTE) (hn : 0 ≤ find_index nc PALETTE) :
    luminanceOf false nl = 1 ∧
    readCell (renderSphere geom earth earth_night false w h canvas) y x = some dc := by
  refine ⟨rfl, ?_⟩
  obtain ⟨i, hpos, hfi⟩ := find_index_spec dc PALETTE hd
  have hilt : i < PALETTE.length := position_lt_length dc PALETTE i hpos
  have hindex : (clamp_int
      (((ftrunc ((1 - luminanceOf false nl) * ((find_index nc PALETTE : ℤ) : K)
          + luminanceOf false nl * ((find_index dc PALETTE : ℤ) : K))).toNat : ℕ) : ℤ)
      0 ((PALETTE.length : ℤ) - 1)).toNat = i := by
    have hlum : luminanceOf (K := K) false nl = 1 := rfl
    rw [hlum, hfi]
    have harg : (1 - (1 : K)) * ((find_index nc PALETTE : ℤ) : K)
        + 1 * (((i : ℤ) : ℤ) : K) = (((i : ℤ) : ℤ) : K) := by ring
    rw [harg]
    have hft : ftrunc ((((i : ℤ) : ℤ)) : K) = (i : ℤ) := by
      unfold ftrunc
      rw [if_pos (by positivity)]
      exact Int.floor_intCast _
    rw [hft]
    unfold clamp_int
    omega
  have hgetD : PALETTE.getD i (Char.ofNat 32) = dc :=
    position_getD dc (Char.ofNat 32) PALETTE i hpos
  have hpc : pixelChar geom earth earth_night false x y = some dc := by
    rw [pixelChar_of_geom_some geom earth earth_night false x y nl th ph hgeom,
      pixelCharCore_eq_some earth earth_night false nl th ph dc nc hday hnight hd hn,
      hindex, hgetD]
  rw [readCell_renderSphere, if_pos ⟨hearth, hwidth, hy, hx, hrow, by rw [hpc]; rfl⟩, hpc]

/-- Witness for C4: same 1×1 scene as the C2 witness but with lighting
disabled; the written character is the day texel `'.'`. -/
theorem c4_witness :
    luminanceOf (K := ℚ) false 0 = 1 ∧
    readCell (renderSphere (fun _ _ => some ((0 : ℚ), 0, 0))
        [['.']] [[Char.ofNat 32]] false 1 1 [['#']]) 0 0 = some '.' :=
  c4_lighting_disabled_day_char ℚ (fun _ _ => some (0, 0, 0)) [['.']] [[Char.ofNat 32]]
    [['#']] 1 1 0 0 0 0 0 '.' (Char.ofNat 32)
    (by norm_num) (by norm_num) (by norm_num) (by norm_num) (by norm_num [rowLen])
    rfl
    (by simp only [List.length_singleton, List.headD_cons]
        rw [texCoord_one, texCoord_one]; rfl)
    (by simp only [List.length_singleton, List.headD_cons]
        rw [texCoord_one, texCoord_one]; rfl)
    (by decide) (by decide)

/-! ## Periodicity in the rotation offset -/

theorem vec3_congr (a b c a' b' c' : ℝ) (h1 : a = a') (h2 : b = b') (h3 : c = c') :
    (⟨a, b, c⟩ : Vec3) = ⟨a', b', c'⟩ := by
  rw [h1, h2, h3]

theorem rotate_x_apply (v : Vec3) (theta : ℝ) :
    rotate_x v theta =
      ⟨v.x, Real.cos theta * v.y - Real.sin theta * v.z,
       Real.sin theta * v.y + Real.cos theta * v.z⟩ := by
  unfold rotate_x transform_vector_2
  refine vec3_congr _ _ _ _ _ _ ?_ ?_ ?_
  · show (1 : ℝ) * v.x + 0 * v.y + 0 * v.z = v.x
    ring
  · show (0 : ℝ) * v.x + Real.cos theta * v.y + -(Real.sin theta) * v.z
        = Real.cos theta * v.y - Real.sin theta * v.z
    ring
  · show (0 : ℝ) * v.x + Real.sin theta * v.y + Real.cos theta * v.z
        = Real.sin theta * v.y + Real.cos theta * v.z
    ring

/-- Shifting the raw texture angle by exactly `1` does not change the shaded
character: the wrap `theta -= theta.floor()` cancels the shift. -/
theorem pixelCharCore_theta_add_one {K : Type} [LinearOrderedField K] [FloorRing K]
    (earth earth_night : List (List Char)) (lighting : Bool) (nl th ph : K) :
    pixelCharCore earth earth_night lighting nl (th + 1) ph
      = pixelCharCore earth earth_night lighting nl th ph := by
  have hth : (th + 1) - ((⌊th + 1⌋ : ℤ) : K) = th - ((⌊th⌋ : ℤ) : K) := by
    rw [Int.floor_add_one]
    push_cast
    ring
  simp only [pixelCharCore, hth]

/-- With `angle_offset = 2π` the geometry stage produces exactly the
`angle_offset = 0` result with the raw texture angle shifted by
`2π/(2π) = 1`. -/
theorem pixelGeom_two_pi (cam : Camera) (radius scale tilt : ℝ) (w h xi yi : ℕ) :
    pixelGeom cam radius (2 * Real.pi) scale tilt w h xi yi
      = (pixelGeom cam radius 0 scale tilt w h xi yi).map
          (fun p => (p.1, p.2.1 + 1, p.2.2)) := by
  by_cases hd : rayDisc cam radius scale w h xi yi < 0
  · simp [pixelGeom, hd]
  · simp only [pixelGeom]
    rw [if_neg hd, if_neg hd]
    simp only [Option.map_some']
    refine congrArg some ?_
    simp only [Prod.mk.injEq, and_true, true_and]
    have h1 : (2 : ℝ) * Real.pi / 2 / Real.pi = 1 := by
      field_simp
    rw [h1]
    norm_num

/-- C6: `render_sphere` is periodic in the rotation offset with period `2π`:
rendering with `angle_offset = 2π` and with `angle_offset = 0` from equal
canvases produces identical output canvases, for every camera, canvas,
radius, textures, scale, tilt, lighting flag and grid size. -/
theorem c6_render_sphere_periodic (cam : Camera) (canvas : List (List Char))
    (radius : ℝ) (earth earth_night : List (List Char)) (scale tilt : ℝ)
    (lighting : Bool) (w h : ℕ) :
    cam.render_sphere canvas radius (2 * Real.pi) earth earth_night scale tilt lighting w h
      = cam.render_sphere canvas radius 0 earth earth_night scale tilt lighting w h := by
  unfold Camera.render_sphere
  apply renderSphere_congr
  intro xi yi
  have hshift := pixelGeom_two_pi cam radius scale tilt w h xi yi
  cases hg : pixelGeom cam radius 0 scale tilt w h xi yi with
  | none =>
      rw [hg] at hshift
      simp only [Option.map_none'] at hshift
      rw [pixelChar_none_of_geom_none _ _ _ _ _ _ hshift,
        pixelChar_none_of_geom_none _ _ _ _ _ _ hg]
  | some p =>
      obtain ⟨nl, th, ph⟩ := p
      rw [hg] at hshift
      simp only [Option.map_some'] at hshift
      rw [pixelChar_of_geom_some _ _ _ _ _ _ _ _ _ hshift,
        pixelChar_of_geom_some _ _ _ _ _ _ _ _ _ hg,
        pixelCharCore_theta_add_one]

/-! ## Concrete evaluation of the geometry stage at `camCex`

For the centre pixel of a 1×1 canvas, `camCex`'s ray direction is
`(0, -1, 0)`, the discriminant of the radius-`999999` sphere is `999999²`,
and the intersection point is exactly the light source `(0, 999999, 0)`:
the light vector degenerates to the zero vector, `normalize` returns it
unchanged (the division-by-zero guard), and the Lambertian term is `0`,
giving luminance exactly `1/2`. -/

theorem rayDir_camCex : rayDir camCex 1 1 0 0 = ⟨0, -1, 0⟩ := by
  have e0 : camCex.matrix 0 = 0 := rfl
  have e1 : camCex.matrix 1 = 0 := rfl
  have e2 : camCex.matrix 2 = 0 := rfl
  have e4 : camCex.matrix 4 = 0 := rfl
  have e5 : camCex.matrix 5 = 0 := rfl
  have e6 : camCex.matrix 6 = 0 := rfl
  have e8 : camCex.matrix 8 = 0 := rfl
  have e9 : camCex.matrix 9 = 0 := rfl
  have e10 : camCex.matrix 10 = 0 := rfl
  have e12 : camCex.matrix 12 = 0 := rfl
  have e13 : camCex.matrix 13 = 2 * 999999 - 1 := rfl
  have e14 : camCex.matrix 14 = 0 := rfl
  have ex : camCex.x = 0 := rfl
  have ey : camCex.y = 2 * 999999 := rfl
  have ez : camCex.z = 0 := rfl
  simp only [rayDir, transform_vector]
  rw [e0, e1, e2, e4, e5, e6, e8, e9, e10, e12, e13, e14, ex, ey, ez]
  have hmag : magnitude ⟨0, -1, 0⟩ = 1 := by
    unfold magnitude
    norm_num [Real.sqrt_one]
  calc _ = normalize ⟨0, -1, 0⟩ := by
        congr 1
        refine vec3_congr _ _ _ _ _ _ ?_ ?_ ?_ <;> norm_num
    _ = ⟨0, -1, 0⟩ := by
        unfold normalize
        rw [hmag, if_neg one_ne_zero]
        refine vec3_congr _ _ _ _ _ _ ?_ ?_ ?_ <;> norm_num

theorem rayDisc_camCex : rayDisc camCex 999999 1 1 1 0 0 = 999999 * 999999 := by
  have ex : camCex.x = 0 := rfl
  have ey : camCex.y = 2 * 999999 := rfl
  have ez : camCex.z = 0 := rfl
  simp only [rayDisc, rayDir_camCex, dot]
  rw [ex, ey, ez]
  norm_num

theorem interPoint_camCex : interPoint camCex 999999 1 1 1 0 0 = ⟨0, 999999, 0⟩ := by
  have ex : camCex.x = 0 := rfl
  have ey : camCex.y = 2 * 999999 := rfl
  have ez : camCex.z = 0 := rfl
  have hsq : Real.sqrt ((999999 : ℝ) * 999999) = 999999 :=
    Real.sqrt_mul_self (by norm_num)
  simp only [interPoint, rayDir_camCex, rayDisc_camCex, dot]
  rw [hsq, ex, ey, ez]
  refine vec3_congr _ _ _ _ _ _ ?_ ?_ ?_ <;> norm_num

theorem pixelGeom_camCex :
    pixelGeom camCex 999999 0 1 0 1 1 0 0 = some (0, 0, 1/2) := by
  have hvec : vector ⟨0, 999999, 0⟩ ⟨0, 999999, 0⟩ = (⟨0, 0, 0⟩ : Vec3) := by
    unfold vector
    refine vec3_congr _ _ _ _ _ _ ?_ ?_ ?_ <;> norm_num
  have hm0 : magnitude ⟨0, 0, 0⟩ = 0 := by
    unfold magnitude
    norm_num [Real.sqrt_zero]
  have hnorm0 : normalize ⟨0, 0, 0⟩ = (⟨0, 0, 0⟩ : Vec3) := by
    unfold normalize
    rw [if_pos hm0]
  have hdot0 : dot (normalize ⟨0, 999999, 0⟩) ⟨0, 0, 0⟩ = 0 := by
    unfold dot
    norm_num
  have htemp : rotate_x ⟨0, 999999, 0⟩ (-((0 : ℝ) * (Real.pi / 180)))
      = (⟨0, 999999, 0⟩ : Vec3) := by
    rw [rotate_x_apply]
    refine vec3_congr _ _ _ _ _ _ ?_ ?_ ?_
    · rfl
    · show Real.cos (-((0 : ℝ) * (Real.pi / 180))) * 999999
          - Real.sin (-((0 : ℝ) * (Real.pi / 180))) * 0 = 999999
      norm_num
    · show Real.sin (-((0 : ℝ) * (Real.pi / 180))) * 999999
          + Real.cos (-((0 : ℝ) * (Real.pi / 180))) * 0 = 0
      norm_num
  have hatan : atan2 999999 0 = Real.pi / 2 := by
    unfold atan2
    rw [Complex.arg_eq_pi_div_two_iff]
    constructor
    · rfl
    · norm_num
  simp only [pixelGeom, interPoint_camCex, rayDisc_camCex]
  rw [if_neg (by norm_num)]
  rw [htemp, hvec, hnorm0, hdot0]
  refine congrArg some ?_
  simp only [Prod.mk.injEq]
  refine ⟨trivial, ?_, ?_⟩
  · show -(atan2 (⟨0, 999999, 0⟩ : Vec3).y (⟨0, 999999, 0⟩ : Vec3).x) / Real.pi
        + 1/2 + 0 / 2 / Real.pi = 0
    have hy : ((⟨0, 999999, 0⟩ : Vec3)).y = (999999 : ℝ) := rfl
    have hx : ((⟨0, 999999, 0⟩ : Vec3)).x = (0 : ℝ) := rfl
    rw [hy, hx, hatan]
    field_simp
    ring
  · show -((⟨0, 999999, 0⟩ : Vec3)).z / (999999 * 1) / 2 + 1/2 = 1/2
    have hz : ((⟨0, 999999, 0⟩ : Vec3)).z = (0 : ℝ) := rfl
    rw [hz]
    norm_num

/-- Counterexample to C2: in the concrete 1×1 render below, the centre pixel
hits the sphere with luminance exactly `1/2`, samples day texel `'.'`
(palette index 1) and night texel `' '` (palette index 0), and the code
writes `' '` — the palette character at the *truncated* blended index
`trunc(1/2) = 0` — whereas the claim's formula `round((1−ℓ)·night + ℓ·day)
= round(1/2) = 1` selects `'.'`. -/
theorem c2_counterexample :
    readCell (Camera.render_sphere camCex [['#']] 999999 0 [['.']] [[Char.ofNat 32]]
        1 0 true 1 1) 0 0 = some (Char.ofNat 32) ∧
    PALETTE.getD (specBlendedIndex (luminanceOf true 0)
        (find_index (Char.ofNat 32) PALETTE) (find_index '.' PALETTE))
      (Char.ofNat 32) = '.' ∧
    Char.ofNat 32 ≠ '.' := by
  have hpcc : pixelChar (pixelGeom camCex 999999 0 1 0 1 1) [['.']] [[Char.ofNat 32]]
      true 0 0 = some (Char.ofNat 32) := by
    rw [pixelChar_of_geom_some _ _ _ _ _ _ _ _ _ pixelGeom_camCex]
    rw [pixelCharCore_eq_some [['.']] [[Char.ofNat 32]] true 0 0 (1/2) '.' (Char.ofNat 32)
      (by simp only [List.length_singleton, List.headD_cons]
          rw [texCoord_one, texCoord_one]; rfl)
      (by simp only [List.length_singleton, List.headD_cons]
          rw [texCoord_one, texCoord_one]; rfl)
      (by decide) (by decide)]
    have hlum : luminanceOf true (0 : ℝ) = 1/2 := by
      unfold luminanceOf clamp
      norm_num
    rw [hlum, show find_index '.' PALETTE = 1 from by decide,
      show find_index (Char.ofNat 32) PALETTE = 0 from by decide]
    have harg : (1 - (1/2 : ℝ)) * (((0 : ℤ) : ℤ) : ℝ) + (1/2 : ℝ) * (((1 : ℤ) : ℤ) : ℝ)
        = 1/2 := by
      push_cast
      ring
    rw [harg]
    have hft : ftrunc ((1 : ℝ)/2) = 0 := by
      unfold ftrunc
      rw [if_pos (by norm_num)]
      norm_num
    rw [hft]
    rfl
  refine ⟨?_, ?_, by decide⟩
  · unfold Camera.render_sphere
    rw [readCell_renderSphere, if_pos]
    · rw [hpcc]
    · exact ⟨by norm_num, by norm_num, by norm_num, by norm_num,
        by norm_num [rowLen], by rw [hpcc]; rfl⟩
  · have hlum : luminanceOf true (0 : ℚ) = 1/2 := by
      unfold luminanceOf clamp
      norm_num
    rw [hlum, show find_index '.' PALETTE = 1 from by decide,
      show find_index (Char.ofNat 32) PALETTE = 0 from by decide]
    unfold specBlendedIndex
    have hround : round ((1 - (1/2 : ℚ)) * (((0 : ℤ) : ℤ) : ℚ)
        + (1/2 : ℚ) * (((1 : ℤ) : ℤ) : ℚ)) = 1 := by
      rw [round_eq]
      push_cast
      norm_num
    rw [hround]
    rfl

end AsciiGlobe
